import Mathlib

/-!
Shallow embedding of the collision-avoidance demo (`src/main.cpp` and the
unnamed source file): the `Simulation` state (goals, staging obstacle,
committed obstacles, owned `RVO::RVOSimulator`), the `Renderer` coordinate
transforms and staging-preview drawing, and the camera scroll handler of
`App::main_loop`.

Numeric conventions: C++ `float`/`double` arithmetic is modelled by exact
rationals (`ℚ`); C++ `int` by `Int`; `size_t` conversion by `% 2^64`.
`std::cos(i * 2 * M_PI / numAgents)` and the matching `std::sin` call are
abstracted as function parameters `cosv sinv : ℕ → Int → ℚ` of the loop
index `i` and of `numAgents`.
-/

/-- Embedding of `RVO::Vector2` (two floats, modelled as rationals). -/
structure Vec2 where
  x : ℚ
  y : ℚ
deriving DecidableEq, Repr

/-- Unary minus on `RVO::Vector2` (used as `-simulator->getAgentPosition(i)`). -/
def Vec2.neg (v : Vec2) : Vec2 := ⟨-v.x, -v.y⟩

/-- Scalar multiple `k * RVO::Vector2(x, y)`. -/
def Vec2.smul (k : ℚ) (v : Vec2) : Vec2 := ⟨k * v.x, k * v.y⟩

/-- The external solver `RVO::RVOSimulator`, modelled at its interface
boundary: added agent positions, added obstacle polygons, and the set of
obstacle polygons that `processObstacles` has incorporated. Agent defaults,
preferred velocities and stepping are irrelevant to the claims and omitted. -/
structure RVOSimulator where
  agents : List Vec2
  obstacles : List (List Vec2)
  processedObstacles : List (List Vec2)
deriving DecidableEq, Repr

/-- Model of `std::make_unique<RVO::RVOSimulator>()`: a fresh, empty solver. -/
def RVOSimulator.fresh : RVOSimulator := ⟨[], [], []⟩

/-- Model of `RVO::RVOSimulator::addAgent(position)`: appends an agent. -/
def RVOSimulator.addAgent (s : RVOSimulator) (p : Vec2) : RVOSimulator :=
  { s with agents := s.agents ++ [p] }

/-- Model of `RVO::RVOSimulator::getAgentPosition(i)` (out-of-range reads are UB in
C++ and never exercised by the embedded code; default `(0, 0)`). -/
def RVOSimulator.getAgentPosition (s : RVOSimulator) (i : ℕ) : Vec2 :=
  s.agents.getD i ⟨0, 0⟩

/-- Model of `RVO::RVOSimulator::getNumAgents()`. -/
def RVOSimulator.getNumAgents (s : RVOSimulator) : ℕ := s.agents.length

/-- Model of `RVO::RVOSimulator::addObstacle(vertices)`: appends a polygon to the
obstacle input of the solver; it takes effect only after `processObstacles`. -/
def RVOSimulator.addObstacle (s : RVOSimulator) (o : List Vec2) : RVOSimulator :=
  { s with obstacles := s.obstacles ++ [o] }

/-- Model of `RVO::RVOSimulator::processObstacles()`: (re)processes every obstacle
added so far, making the full obstacle set live for avoidance. -/
def RVOSimulator.processObstacles (s : RVOSimulator) : RVOSimulator :=
  { s with processedObstacles := s.obstacles }

/-- Model of `Simulation::configuration_t`. -/
inductive configuration_t where
  | CIRCLE
  | DEADLOCK
deriving DecidableEq, Repr

/-- Model of `Simulation::options_t` (the configuration value object). -/
structure options_t where
  configuration : configuration_t := .CIRCLE
  run_simulation : Bool := false
  show_goal : Bool := false
  time_scale : ℚ := 10
  neighborDist : ℚ := 15
  maxNeighbors : Int := 10
  timeHorizon : ℚ := 10
  timeHorizonObst : ℚ := 10
  radius : ℚ := 3 / 2
  maxSpeed : ℚ := 10
  numAgents : Int := 250
  circleRadius : ℚ := 200
deriving DecidableEq, Repr

/-- Model of `struct Simulation`: the owned solver, the goal list, the staging
obstacle buffer, and the committed obstacle list. -/
structure Simulation where
  simulator : RVOSimulator
  goals : List Vec2
  staging_obstacle : List Vec2
  obstacles : List (List Vec2)
deriving DecidableEq, Repr

/-- Number of iterations of `for (size_t i = 0; i < options.numAgents; ++i)`:
`numAgents` is a C++ `int` compared against a `size_t`, so it is converted
to `size_t` (reduction mod `2^64`); a negative count wraps around instead
of being clamped to zero. -/
def circleLoopCount (numAgents : Int) : ℕ :=
  (numAgents % (2 ^ 64 : Int)).toNat

/-- The position handed to `addAgent` for loop index `i` of the circle
scenario: `options.circleRadius * RVO::Vector2(cos(i*2π/N), sin(i*2π/N))`
with `N = options.numAgents`. -/
def circlePlacement (cosv sinv : ℕ → Int → ℚ) (options : options_t) (i : ℕ) : Vec2 :=
  Vec2.smul options.circleRadius
    ⟨cosv i options.numAgents, sinv i options.numAgents⟩

/-- One iteration of the circle-placement loop: add the agent at
`circleRadius * (cos(i*2π/N), sin(i*2π/N))`, then push `-getAgentPosition(i)`
onto the goal list. -/
def circleStep (cosv sinv : ℕ → Int → ℚ) (options : options_t)
    (acc : RVOSimulator × List Vec2) (i : ℕ) : RVOSimulator × List Vec2 :=
  let s := acc.1.addAgent (circlePlacement cosv sinv options i)
  (s, acc.2 ++ [Vec2.neg (s.getAgentPosition i)])

/-- Model of `Simulation::initialize(options)`: replace the solver by a fresh one,
re-add and (if any) process the committed obstacles, clear the goals, and
populate agents and goals per the selected scenario. The staging buffer and
the committed obstacle list are not touched. -/
def Simulation.init (cosv sinv : ℕ → Int → ℚ)
    (sim : Simulation) (options : options_t) : Simulation :=
  let simulator := RVOSimulator.fresh
  let simulator := sim.obstacles.foldl RVOSimulator.addObstacle simulator
  let simulator :=
    if sim.obstacles.isEmpty then simulator else simulator.processObstacles
  match options.configuration with
  | .CIRCLE =>
    let r := (List.range (circleLoopCount options.numAgents)).foldl
      (circleStep cosv sinv options) (simulator, [])
    { sim with simulator := r.1, goals := r.2 }
  | .DEADLOCK =>
    let simulator := simulator.addAgent ⟨-2 * options.radius, 0⟩
    let goals : List Vec2 := [⟨10 * options.radius, 0⟩]
    let simulator := simulator.addAgent ⟨2 * options.radius, 0⟩
    let goals := goals ++ [⟨-10 * options.radius, 0⟩]
    { sim with simulator := simulator, goals := goals }

/-- Model of `Simulation::commit_obstacle()`: if the staging buffer has more than 2
vertices, add it to the live solver, reprocess obstacles, and append it to
the committed list; in every case clear the staging buffer. -/
def Simulation.commit_obstacle (sim : Simulation) : Simulation :=
  if 2 < sim.staging_obstacle.length then
    { sim with
      simulator := (sim.simulator.addObstacle sim.staging_obstacle).processObstacles,
      obstacles := sim.obstacles ++ [sim.staging_obstacle],
      staging_obstacle := [] }
  else
    { sim with staging_obstacle := [] }

/-- Model of `Renderer::options_t`: camera scale and pan offset. -/
structure RendererOptions where
  scale : ℚ
  offset_x : ℚ
  offset_y : ℚ
deriving DecidableEq, Repr

/-- Model of `Renderer::toScreenSpace` (`width`/`height` are `uint32_t`, so
`width / 2` is integer division before the float arithmetic). -/
def toScreenSpace (o : RendererOptions) (width height : ℕ) (p : Vec2) : Vec2 :=
  ⟨(width / 2 : ℕ) + o.offset_x + p.x * o.scale,
   (height / 2 : ℕ) + o.offset_y - p.y * o.scale⟩

/-- Model of `Renderer::fromScreenSpace`. -/
def fromScreenSpace (o : RendererOptions) (width height : ℕ) (p : Vec2) : Vec2 :=
  ⟨(p.x - (width / 2 : ℕ) - o.offset_x) / o.scale,
   (-p.y + (height / 2 : ℕ) + o.offset_y) / o.scale⟩

/-- The scroll-wheel branch of `App::main_loop`:
`scale += wheel.y * 0.01 * scale`, then clamp negative results to `0`. -/
def applyScroll (scale : ℚ) (wheel_y : Int) : ℚ :=
  let scale := scale + wheel_y * (1 / 100) * scale
  if scale < 0 then 0 else scale

/-- A finite sequence of scroll gestures, applied in order. -/
def applyScrolls (scale : ℚ) (wheels : List Int) : ℚ :=
  wheels.foldl applyScroll scale

/-- The right-click branch of `App::main_loop`: append the clicked position
(converted to world space) to the staging buffer, then commit. -/
def handleRightClick (o : RendererOptions) (width height : ℕ)
    (sim : Simulation) (click : Vec2) : Simulation :=
  let sim := { sim with
    staging_obstacle := sim.staging_obstacle ++ [fromScreenSpace o width height click] }
  sim.commit_obstacle

/-- A primitive draw call issued by `Renderer::draw` (screen coordinates). -/
inductive DrawCmd where
  | point (p : Vec2)
  | line (a b : Vec2)
deriving DecidableEq, Repr

/-- Tail of the staging-obstacle loop of `Renderer::draw`: for each `i > 0`,
draw the vertex point and the segment from the previous vertex. -/
def stagingPolylineAux (prev : Vec2) : List Vec2 → List DrawCmd
  | [] => []
  | q :: rest => DrawCmd.point q :: DrawCmd.line prev q :: stagingPolylineAux q rest

/-- The staging-obstacle loop of `Renderer::draw`: a point per vertex and a
segment between consecutive vertices (no segment at `i = 0`). -/
def stagingPolyline : List Vec2 → List DrawCmd
  | [] => []
  | p :: rest => DrawCmd.point p :: stagingPolylineAux p rest

/-- The staging-obstacle rendering of `Renderer::draw` (points, polyline and
preview edges), with vertices mapped through `toScreenSpace` and the mouse
position already in screen coordinates. `captured` is
`ui_want_capture_mouse()`. -/
def drawStaging (o : RendererOptions) (width height : ℕ)
    (staging : List Vec2) (captured : Bool) (mouse : Vec2) : List DrawCmd :=
  let screens := staging.map (toScreenSpace o width height)
  stagingPolyline screens ++
    (if captured then
      if 2 < staging.length then
        [DrawCmd.line (toScreenSpace o width height (staging.headD ⟨0, 0⟩))
          (toScreenSpace o width height (staging.getLastD ⟨0, 0⟩))]
      else []
    else
      (if staging.isEmpty then []
       else [DrawCmd.line (toScreenSpace o width height (staging.headD ⟨0, 0⟩)) mouse]) ++
      (if 1 < staging.length then
        [DrawCmd.line (toScreenSpace o width height (staging.getLastD ⟨0, 0⟩)) mouse]
       else []))

/-! ## Helper lemmas -/

theorem foldl_addObstacle (l : List (List Vec2)) (s : RVOSimulator) :
    l.foldl RVOSimulator.addObstacle s = { s with obstacles := s.obstacles ++ l } := by
  induction l generalizing s with
  | nil => simp
  | cons a t ih =>
    simp only [List.foldl_cons, ih, RVOSimulator.addObstacle, List.append_assoc,
      List.singleton_append]

theorem circle_fold (cosv sinv : ℕ → Int → ℚ) (options : options_t)
    (s0 : RVOSimulator) (h : s0.agents = []) (n : ℕ) :
    (List.range n).foldl (circleStep cosv sinv options) (s0, []) =
      ({ s0 with agents := (List.range n).map (circlePlacement cosv sinv options) },
       (List.range n).map (fun i => Vec2.neg (circlePlacement cosv sinv options i))) := by
  induction n with
  | zero => simp [← h]
  | succ n ih =>
    rw [List.range_succ, List.foldl_append, ih]
    simp only [List.foldl_cons, List.foldl_nil, circleStep, RVOSimulator.addAgent,
      RVOSimulator.getAgentPosition, List.map_append, List.map_cons, List.map_nil]
    rw [Prod.mk.injEq]
    refine ⟨rfl, ?_⟩
    simp [List.getD_append_right]

theorem applyScroll_nonneg (scale : ℚ) (w : Int) : 0 ≤ applyScroll scale w := by
  simp only [applyScroll]
  split
  · exact le_refl 0
  · next h => exact le_of_not_lt h

/-! ## Claim theorems -/

/-- C1: `commit_obstacle` appends the staging buffer (same vertices, same
order) as exactly one new polygon to the committed list and to the live
solver, with obstacle reprocessing triggered, when it has at least 3
vertices; otherwise committed list and solver are left unchanged; in both
cases the staging buffer ends empty (goals and agents are untouched). -/
theorem commit_obstacle_spec (sim : Simulation) :
    (sim.commit_obstacle).staging_obstacle = [] ∧
    (sim.commit_obstacle).obstacles =
      (if 2 < sim.staging_obstacle.length then
        sim.obstacles ++ [sim.staging_obstacle] else sim.obstacles) ∧
    (sim.commit_obstacle).simulator.obstacles =
      (if 2 < sim.staging_obstacle.length then
        sim.simulator.obstacles ++ [sim.staging_obstacle] else sim.simulator.obstacles) ∧
    (sim.commit_obstacle).simulator.processedObstacles =
      (if 2 < sim.staging_obstacle.length then
        sim.simulator.obstacles ++ [sim.staging_obstacle]
       else sim.simulator.processedObstacles) ∧
    (sim.commit_obstacle).goals = sim.goals ∧
    (sim.commit_obstacle).simulator.agents = sim.simulator.agents := by
  unfold Simulation.commit_obstacle
  split
  · next h => simp [h, RVOSimulator.addObstacle, RVOSimulator.processObstacles]
  · next h => simp [h]

/-- C3 (amended): `initialize` leaves the staging buffer unchanged — a
non-empty in-progress staging obstacle survives re-initialization. -/
theorem initialize_staging_unchanged (cosv sinv : ℕ → Int → ℚ)
    (sim : Simulation) (options : options_t) :
    (Simulation.init cosv sinv sim options).staging_obstacle =
      sim.staging_obstacle := by
  unfold Simulation.init
  cases options.configuration <;> simp

/-- C3 counterexample: a state whose staging buffer holds one vertex still
has a non-empty staging buffer after `initialize` — the claim that
re-initialization leaves the staging buffer empty is false. -/
theorem initialize_staging_counterexample :
    (⟨RVOSimulator.fresh, [], [⟨1, 0⟩], []⟩ : Simulation).staging_obstacle ≠ [] ∧
    (Simulation.init (fun _ _ => 0) (fun _ _ => 0)
      ⟨RVOSimulator.fresh, [], [⟨1, 0⟩], []⟩
      { configuration := .DEADLOCK }).staging_obstacle ≠ [] := by
  constructor
  · simp
  · simp [Simulation.init, RVOSimulator.fresh]

/-- C4: `initialize` keeps the committed obstacle list unchanged, re-adds
every committed polygon, in order, to the fresh solver, and processes the
obstacles of the solver exactly when the committed list is non-empty. -/
theorem initialize_preserves_obstacles (cosv sinv : ℕ → Int → ℚ)
    (sim : Simulation) (options : options_t) :
    (Simulation.init cosv sinv sim options).obstacles = sim.obstacles ∧
    (Simulation.init cosv sinv sim options).simulator.obstacles =
      sim.obstacles ∧
    (Simulation.init cosv sinv sim options).simulator.processedObstacles =
      (if sim.obstacles.isEmpty then [] else sim.obstacles) := by
  cases hc : options.configuration <;> cases he : sim.obstacles.isEmpty <;>
    simp [Simulation.init, hc, he, foldl_addObstacle, circle_fold,
      RVOSimulator.fresh, RVOSimulator.processObstacles, RVOSimulator.addAgent]

/-- C7: for every camera scale `s > 0`, offset, window size and world point
`p`, `fromScreenSpace` inverts `toScreenSpace` exactly (the model uses
exact rational arithmetic, so the floating-point tolerance is 0). -/
theorem screen_roundtrip (o : RendererOptions) (width height : ℕ) (p : Vec2)
    (h : 0 < o.scale) :
    fromScreenSpace o width height (toScreenSpace o width height p) = p := by
  have hs : o.scale ≠ 0 := ne_of_gt h
  cases p with
  | mk px py =>
    simp only [toScreenSpace, fromScreenSpace, Vec2.mk.injEq]
    constructor <;> field_simp <;> ring

/-- C7 witness: concrete round trip at scale 1, offset (2, 3), window
640×480, point (5, 7). -/
theorem screen_roundtrip_witness :
    (0 : ℚ) < 1 ∧
    fromScreenSpace ⟨1, 2, 3⟩ 640 480 (toScreenSpace ⟨1, 2, 3⟩ 640 480 ⟨5, 7⟩) =
      ⟨5, 7⟩ :=
  ⟨by norm_num, screen_roundtrip ⟨1, 2, 3⟩ 640 480 ⟨5, 7⟩ (by norm_num)⟩

/-- C8: starting from a non-negative camera scale, after any finite
sequence of scroll gestures (each multiplying the scale by
`1 + wheel_y / 100` and clamping negatives to 0) the scale is ≥ 0. -/
theorem scroll_scale_nonneg (scale : ℚ) (wheels : List Int) (h : 0 ≤ scale) :
    0 ≤ applyScrolls scale wheels := by
  unfold applyScrolls
  induction wheels generalizing scale with
  | nil => exact h
  | cons w t ih => exact ih (applyScroll scale w) (applyScroll_nonneg scale w)

/-- C8 witness: the scale stays non-negative across a concrete gesture
sequence that includes a large negative wheel delta. -/
theorem scroll_scale_nonneg_witness :
    (0 : ℚ) ≤ 3 / 2 ∧ 0 ≤ applyScrolls (3 / 2) [5, -300, 2] :=
  ⟨by norm_num, scroll_scale_nonneg (3 / 2) [5, -300, 2] (by norm_num)⟩

/-- C10: a right click while the staging buffer has fewer than 2 vertices
appends the clicked world position, but the immediate commit sees at most 2
vertices: the committed obstacle list and the whole solver state (obstacle
set included) are unchanged, and the staging buffer — the new vertex
included — ends empty. -/
theorem right_click_short_staging (o : RendererOptions) (width height : ℕ)
    (sim : Simulation) (click : Vec2)
    (h : sim.staging_obstacle.length < 2) :
    (handleRightClick o width height sim click).obstacles = sim.obstacles ∧
    (handleRightClick o width height sim click).simulator = sim.simulator ∧
    (handleRightClick o width height sim click).staging_obstacle = [] := by
  unfold handleRightClick Simulation.commit_obstacle
  have hlen : ¬ 2 < sim.staging_obstacle.length + 1 := by omega
  simp [hlen]

/-- C10 witness: right click with a single staged vertex commits nothing
and empties the staging buffer. -/
theorem right_click_short_staging_witness :
    ([(⟨0, 0⟩ : Vec2)] : List Vec2).length < 2 ∧
    (handleRightClick ⟨1, 0, 0⟩ 640 480
      ⟨RVOSimulator.fresh, [], [⟨0, 0⟩], []⟩ ⟨7, 7⟩).obstacles = [] ∧
    (handleRightClick ⟨1, 0, 0⟩ 640 480
      ⟨RVOSimulator.fresh, [], [⟨0, 0⟩], []⟩ ⟨7, 7⟩).simulator =
      RVOSimulator.fresh ∧
    (handleRightClick ⟨1, 0, 0⟩ 640 480
      ⟨RVOSimulator.fresh, [], [⟨0, 0⟩], []⟩ ⟨7, 7⟩).staging_obstacle = [] := by
  refine ⟨by norm_num, ?_⟩
  exact right_click_short_staging ⟨1, 0, 0⟩ 640 480
    ⟨RVOSimulator.fresh, [], [⟨0, 0⟩], []⟩ ⟨7, 7⟩ (by norm_num)

/-- C5: with the deadlock scenario selected, `initialize` yields exactly 2
agents — whatever `numAgents` says — at `(-2r, 0)` and `(2r, 0)` with goals
`(10r, 0)` and `(-10r, 0)` for the configured agent radius `r`. -/
theorem initialize_deadlock_spec (cosv sinv : ℕ → Int → ℚ)
    (sim : Simulation) (options : options_t)
    (h : options.configuration = .DEADLOCK) :
    (Simulation.init cosv sinv sim options).simulator.getNumAgents = 2 ∧
    (Simulation.init cosv sinv sim options).simulator.agents =
      [⟨-2 * options.radius, 0⟩, ⟨2 * options.radius, 0⟩] ∧
    (Simulation.init cosv sinv sim options).goals =
      [⟨10 * options.radius, 0⟩, ⟨-10 * options.radius, 0⟩] := by
  cases he : sim.obstacles.isEmpty <;>
    simp [Simulation.init, h, he, foldl_addObstacle, RVOSimulator.fresh,
      RVOSimulator.addAgent, RVOSimulator.processObstacles, RVOSimulator.getNumAgents]

/-- C5 witness: deadlock with agent radius 1.5 puts the two agents at
`(-3, 0)` and `(3, 0)` with goals `(15, 0)` and `(-15, 0)`. -/
theorem initialize_deadlock_witness :
    (Simulation.init (fun _ _ => 0) (fun _ _ => 0)
      ⟨RVOSimulator.fresh, [], [], []⟩
      { configuration := .DEADLOCK, radius := 3 / 2 }).simulator.agents =
      [⟨-3, 0⟩, ⟨3, 0⟩] ∧
    (Simulation.init (fun _ _ => 0) (fun _ _ => 0)
      ⟨RVOSimulator.fresh, [], [], []⟩
      { configuration := .DEADLOCK, radius := 3 / 2 }).goals =
      [⟨15, 0⟩, ⟨-15, 0⟩] := by
  have h := initialize_deadlock_spec (fun _ _ => 0) (fun _ _ => 0)
    ⟨RVOSimulator.fresh, [], [], []⟩ { configuration := .DEADLOCK, radius := 3 / 2 } rfl
  refine ⟨?_, ?_⟩
  · rw [h.2.1]; norm_num
  · rw [h.2.2]; norm_num

/-- C2: with the circle scenario, an agent count `1 ≤ N` in `int` range and
any circle radius, `initialize` places agent `i` at
`circleRadius * (cos(i*2π/N), sin(i*2π/N))` (with the floating-point
`cos`/`sin` calls abstracted as `cosv`/`sinv`), stores exactly `N` agents and
`N` goals, and each stored goal is the exact negation of the initial position
of that agent. -/
theorem initialize_circle_spec (cosv sinv : ℕ → Int → ℚ)
    (sim : Simulation) (options : options_t)
    (hc : options.configuration = .CIRCLE)
    (h1 : 1 ≤ options.numAgents) (h2 : options.numAgents < 2 ^ 31)
    (i : ℕ) (hi : i < options.numAgents.toNat) :
    (Simulation.init cosv sinv sim options).simulator.agents[i]? =
      some (Vec2.smul options.circleRadius
        ⟨cosv i options.numAgents, sinv i options.numAgents⟩) ∧
    (Simulation.init cosv sinv sim options).goals[i]? =
      some (Vec2.neg (Vec2.smul options.circleRadius
        ⟨cosv i options.numAgents, sinv i options.numAgents⟩)) ∧
    (Simulation.init cosv sinv sim options).simulator.getNumAgents =
      options.numAgents.toNat ∧
    (Simulation.init cosv sinv sim options).goals.length =
      options.numAgents.toNat := by
  have hcount : circleLoopCount options.numAgents = options.numAgents.toNat := by
    unfold circleLoopCount
    rw [Int.emod_eq_of_lt (by linarith) (lt_trans h2 (by norm_num))]
  cases he : sim.obstacles.isEmpty <;>
    simp [Simulation.init, hc, he, hcount, foldl_addObstacle, circle_fold,
      RVOSimulator.fresh, RVOSimulator.processObstacles, RVOSimulator.getNumAgents,
      circlePlacement, List.getElem?_map, List.getElem?_range, hi]

/-- C2 witness: circle scenario with 2 agents; agent 0 sits at
`circleRadius * (cos 0, sin 0)` and its goal is the exact negation. -/
theorem initialize_circle_witness :
    (Simulation.init (fun _ _ => 1) (fun _ _ => 0)
      ⟨RVOSimulator.fresh, [], [], []⟩
      { configuration := .CIRCLE, numAgents := 2 }).simulator.agents[0]? =
      some (Vec2.smul 200 ⟨1, 0⟩) ∧
    (Simulation.init (fun _ _ => 1) (fun _ _ => 0)
      ⟨RVOSimulator.fresh, [], [], []⟩
      { configuration := .CIRCLE, numAgents := 2 }).goals[0]? =
      some (Vec2.neg (Vec2.smul 200 ⟨1, 0⟩)) ∧
    (Simulation.init (fun _ _ => 1) (fun _ _ => 0)
      ⟨RVOSimulator.fresh, [], [], []⟩
      { configuration := .CIRCLE, numAgents := 2 }).simulator.getNumAgents = 2 := by
  have h := initialize_circle_spec (fun _ _ => 1) (fun _ _ => 0)
    ⟨RVOSimulator.fresh, [], [], []⟩ { configuration := .CIRCLE, numAgents := 2 }
    rfl (by norm_num) (by norm_num) 0 (by norm_num)
  exact ⟨h.1, h.2.1, h.2.2.1⟩

/-- C6: the circle-placement loop bound converts the `int` agent count to
`size_t`, so a negative count (here `-1`) wraps around to `2^64 - 1`
iterations instead of being clamped to an empty roster. -/
theorem circle_loop_negative_wraps :
    circleLoopCount (-1) = 2 ^ 64 - 1 ∧ circleLoopCount (-1) ≠ 0 := by
  constructor <;> decide

theorem stagingPolylineAux_line_mem (prev a b : Vec2) (l : List Vec2)
    (h : DrawCmd.line a b ∈ stagingPolylineAux prev l) : b ∈ l := by
  induction l generalizing prev with
  | nil => simp [stagingPolylineAux] at h
  | cons q r ih =>
    simp only [stagingPolylineAux, List.mem_cons] at h
    rcases h with h | h | h
    · simp at h
    · injection h with h1 h2
      subst h2
      exact List.mem_cons_self b r
    · exact List.mem_cons_of_mem q (ih q h)

theorem stagingPolyline_line_mem (a b : Vec2) (l : List Vec2)
    (h : DrawCmd.line a b ∈ stagingPolyline l) : b ∈ l := by
  cases l with
  | nil => simp [stagingPolyline] at h
  | cons p r =>
    simp only [stagingPolyline, List.mem_cons] at h
    rcases h with h | h
    · simp at h
    · exact List.mem_cons_of_mem p (stagingPolylineAux_line_mem p a b r h)

/-- C9 (amended): while the pointer is not captured by UI controls, the
preview edge from the *first* staging vertex to the live pointer is drawn
whenever the staging buffer is non-empty (sizes 1 and 2 included, with no
≥3-vertex gate), the preview edge from the *last* staging vertex to the
pointer is drawn once the buffer has at least 2 vertices, and — when the
pointer coincides with no staged vertex — no other edge ending at the
pointer is drawn. -/
theorem drawStaging_preview_edges (o : RendererOptions) (width height : ℕ)
    (staging : List Vec2) (mouse : Vec2) :
    (staging ≠ [] →
      DrawCmd.line (toScreenSpace o width height (staging.headD ⟨0, 0⟩)) mouse
        ∈ drawStaging o width height staging false mouse) ∧
    (2 ≤ staging.length →
      DrawCmd.line (toScreenSpace o width height (staging.getLastD ⟨0, 0⟩)) mouse
        ∈ drawStaging o width height staging false mouse) ∧
    (mouse ∉ staging.map (toScreenSpace o width height) →
      ∀ a, DrawCmd.line a mouse ∈ drawStaging o width height staging false mouse →
        (staging ≠ [] ∧ a = toScreenSpace o width height (staging.headD ⟨0, 0⟩)) ∨
        (2 ≤ staging.length ∧
          a = toScreenSpace o width height (staging.getLastD ⟨0, 0⟩))) := by
  refine ⟨?_, ?_, ?_⟩
  · intro hne
    simp [drawStaging, List.isEmpty_iff, hne]
  · intro h2
    have hne : staging ≠ [] := by
      intro h
      rw [h] at h2
      simp at h2
    have h1lt : 1 < staging.length := by omega
    simp [drawStaging, List.isEmpty_iff, hne, h1lt]
  · intro hmouse a ha
    simp only [drawStaging, Bool.false_eq_true, if_false, List.mem_append] at ha
    rcases ha with ha | ha | ha
    · exact absurd (stagingPolyline_line_mem a mouse _ ha) hmouse
    · rcases hstag : staging.isEmpty with _ | _
      · rw [hstag] at ha
        simp only [Bool.false_eq_true, if_false, List.mem_singleton,
          DrawCmd.line.injEq, and_true] at ha
        exact Or.inl ⟨by simpa [List.isEmpty_iff] using hstag, ha⟩
      · rw [hstag] at ha
        simp at ha
    · by_cases hlen : 1 < staging.length
      · rw [if_pos hlen] at ha
        simp only [List.mem_singleton, DrawCmd.line.injEq, and_true] at ha
        exact Or.inr ⟨by omega, ha⟩
      · rw [if_neg hlen] at ha
        simp at ha

/-- C9 witness: with two staged vertices and the pointer free, both the
first-vertex preview edge and the last-vertex preview edge are drawn. -/
theorem drawStaging_preview_edges_witness :
    DrawCmd.line (toScreenSpace ⟨2, 1, 1⟩ 100 50 ⟨1, 2⟩) ⟨9, 9⟩
      ∈ drawStaging ⟨2, 1, 1⟩ 100 50 [⟨1, 2⟩, ⟨3, 4⟩] false ⟨9, 9⟩ ∧
    DrawCmd.line (toScreenSpace ⟨2, 1, 1⟩ 100 50 ⟨3, 4⟩) ⟨9, 9⟩
      ∈ drawStaging ⟨2, 1, 1⟩ 100 50 [⟨1, 2⟩, ⟨3, 4⟩] false ⟨9, 9⟩ := by
  constructor
  · exact (drawStaging_preview_edges ⟨2, 1, 1⟩ 100 50 [⟨1, 2⟩, ⟨3, 4⟩] ⟨9, 9⟩).1
      (by simp)
  · exact (drawStaging_preview_edges ⟨2, 1, 1⟩ 100 50 [⟨1, 2⟩, ⟨3, 4⟩] ⟨9, 9⟩).2.1
      (by simp)

/-- C9 counterexample: with exactly 2 staged vertices (fewer than 3) and
the pointer free, the closing preview edge from the first staging vertex to
the pointer *is* drawn — refuting the claim that it appears only once the
buffer has at least 3 vertices. -/
theorem drawStaging_closing_edge_counterexample :
    ([(⟨0, 0⟩ : Vec2), ⟨10, 0⟩] : List Vec2).length < 3 ∧
    DrawCmd.line (toScreenSpace ⟨1, 0, 0⟩ 0 0 ⟨0, 0⟩) ⟨5, 5⟩
      ∈ drawStaging ⟨1, 0, 0⟩ 0 0 [⟨0, 0⟩, ⟨10, 0⟩] false ⟨5, 5⟩ := by
  constructor
  · norm_num
  · simp [drawStaging, stagingPolyline, stagingPolylineAux]
